import Mathlib

/-!
Verification of the wallet-watcher balance engine.

This file is a shallow embedding of the balance-watching engine
(`src/watch-multi` / `watch.mjs`): fixed-point valuation of stablecoin
balances, the per-wallet change-detection state machine with confirmation
re-sampling and error gating, per-cycle processing of many wallets, and the
cached provider selector with failover.  JavaScript `BigInt` arithmetic is
modelled by `Int` with `Int.tdiv` (truncation toward zero, the BigInt
division convention); external effects (RPC sampling, SMTP delivery) are
modelled as explicit inputs.
-/

namespace WalletWatcher

/-- The `raw` field of a token entry as seen by `toMicroUsdBigInt`:
it may be `null`/`undefined`, a value convertible by `BigInt(...)` to an
integer, or a value on which `BigInt(...)` throws. -/
inductive RawVal where
  | null
  | intVal (z : ℤ)
  | unconvertible
  deriving DecidableEq, Repr

/-- A successful token entry `{ raw, decimals, formatted }` from
`fetchAllBalances`.  `decimals = none` models an absent/undefined field. -/
structure TokenData where
  raw : RawVal
  decimals : Option ℕ
  formatted : String
  deriving DecidableEq, Repr

/-- A token entry in a snapshot's `tokens` map: either the balance data or
an `{ error }` marker. -/
inductive TokenReading where
  | ok (t : TokenData)
  | err
  deriving DecidableEq, Repr

/-- `pow10n(d)`: `10n ** d` computed by the source's repeated-multiplication
loop. -/
def pow10n (d : ℕ) : ℤ := 10 ^ d

/-- The divisor exponent actually used by `toMicroUsdBigInt`:
`Number(token.decimals || 6)` — an absent or zero `decimals` falls back
to `6`. -/
def effDecimals (t : TokenData) : ℕ :=
  match t.decimals with
  | some d => if d = 0 then 6 else d
  | none => 6

/-- `toMicroUsdBigInt(token)`: `BigInt(token.raw) * 1000000n /
pow10n(Number(token.decimals || 6))`, with the whole computation wrapped in
`try {...} catch { return 0n }`, so a `raw` value on which `BigInt` throws
(`null`, `undefined`, a non-numeric string) yields `0`. -/
def toMicroUsdBigInt (t : TokenData) : ℤ :=
  match t.raw with
  | .intVal z => (z * 1000000).tdiv (pow10n (effDecimals t))
  | _ => 0

/-- One token's contribution inside `calcUsdMicro`: added only when the
entry exists, is not an error, and `raw != null`. -/
def tokenContrib : Option TokenReading → ℤ
  | some (.ok t) => if t.raw = RawVal.null then 0 else toMicroUsdBigInt t
  | _ => 0

/-- The success payload of one network's snapshot, restricted to the fields
the valuation and the email body read: the network name and the `USDT` /
`USDC` entries of the `tokens` map (`none` = symbol not configured on that
network). -/
structure SnapOk where
  netName : String
  usdt : Option TokenReading
  usdc : Option TokenReading
  deriving DecidableEq, Repr

/-- `calcUsdMicro(balances)`: sum of the `USDT` and `USDC` contributions of
one non-errored network snapshot. -/
def calcUsdMicro (s : SnapOk) : ℤ := tokenContrib s.usdt + tokenContrib s.usdc

/-- One per-network element of the `fetchAllBalances` result: either the
success payload or a network-level `{ net, error }` marker. -/
inductive NetworkSnapshot where
  | ok (s : SnapOk)
  | err (netName msg : String)
  deriving DecidableEq, Repr

/-- The contribution of one snapshot element inside the
`snap.reduce((acc, it) => acc + (it.error ? 0n : calcUsdMicro(it)), 0n)`
fold: errored networks contribute `0`. -/
def snapContrib : NetworkSnapshot → ℤ
  | .ok s => calcUsdMicro s
  | .err _ _ => 0

/-- Whether a snapshot element is a network-level error marker. -/
def isErrSnap : NetworkSnapshot → Bool
  | .ok _ => false
  | .err _ _ => true

/-- `totalUsdMicro`: the `reduce` over all network snapshots of one pass. -/
def totalUsdMicro (snaps : List NetworkSnapshot) : ℤ :=
  snaps.foldl (fun acc it => acc + snapContrib it) 0

/-- `anyErrors`: `snap.some((it) => !!it.error)`. -/
def anyErrors (snaps : List NetworkSnapshot) : Bool :=
  snaps.any isErrSnap

/-- `BigInt(Math.round(usdDelta * 1e6))` on an exact rational `usdDelta`
(`Math.round` and Mathlib's `round` both round halves up). -/
def thresholdMicroOf (usdDelta : ℚ) : ℤ := round (usdDelta * 1000000)

/-- The configuration the state machine reads: the change threshold in
micro-dollars (`thresholdMicro = BigInt(Math.round(usdDelta * 1e6))`,
already computed), the `allowErrorsForEmail` flag and the `emailTo`
recipient (`none` models an unset `--emailTo`/`EMAIL_TO`). -/
structure WatchConfig where
  thresholdMicro : ℤ
  allowErrorsForEmail : Bool
  emailTo : Option String
  deriving DecidableEq, Repr

/-- Outcome of one `transporter.sendMail` attempt, an external effect. -/
inductive DeliveryResult where
  | delivered
  | failed
  deriving DecidableEq, Repr

/-- `sendEmail(subject, text)`: returns immediately when `emailTo` is
unset; otherwise attempts delivery and swallows any failure
(`catch (e) { console.error(...) }`), so it never throws.  Returns whether
a message was actually delivered. -/
def sendEmail (emailTo : Option String) (d : DeliveryResult) : Bool :=
  match emailTo with
  | none => false
  | some _ =>
    match d with
    | .delivered => true
    | .failed => false

/-- `shortAddr(a)`: `a.slice(0, 6) + '...' + a.slice(-4)`. -/
def shortAddr (a : String) : String :=
  a.take 6 ++ "..." ++ a.drop (a.length - 4)

/-- `frac.toString().padStart(6, '0')`. -/
def padStart6 (s : String) : String :=
  if 6 ≤ s.length then s else String.mk (List.replicate (6 - s.length) '0') ++ s

/-- `fmtMicroUSD(m)`: sign, then integer and six-digit fractional part of
`|m|` over `1000000n`. -/
def fmtMicroUSD (m : ℤ) : String :=
  let n := m.natAbs
  (if m < 0 then "-" else "") ++ toString (n / 1000000) ++ "." ++
    padStart6 (toString (n % 1000000))

/-- One `- <net>: ...` detail line of the email body. -/
def snapLine : NetworkSnapshot → String
  | .err name msg => "- " ++ name ++ ": ERROR " ++ msg
  | .ok s =>
    let u := match s.usdt with | some (.ok t) => t.formatted | _ => "0"
    let c := match s.usdc with | some (.ok t) => t.formatted | _ => "0"
    "- " ++ s.netName ++ ": USDT=" ++ u ++ ", USDC=" ++ c

/-- A message handed to the transporter. -/
structure EmailMsg where
  recipient : String
  subject : String
  body : List String
  deriving DecidableEq, Repr

/-- The conditional absolute difference as the source writes it:
`(a >= b) ? (a - b) : (b - a)`. -/
def jsAbsDelta (a b : ℤ) : ℤ := if b ≤ a then a - b else b - a

/-- Everything observable about one `processWallet` call: the wallet's
`lastUsdMicro` after the call, whether the change was accepted (the final
`shouldEmail`), the message handed to `sendEmail` (`none` when no email was
composed or `emailTo` is unset), whether it was delivered, and how many
`fetchAllBalances` passes ran. -/
structure WalletOutcome where
  lastUsdMicro : Option ℤ
  accepted : Bool
  sent : Option EmailMsg
  delivered : Bool
  fetches : ℕ
  deriving DecidableEq, Repr

/-- `processWallet(address)` from the multi-wallet watcher.  The external
RPC world is the input `samples` (`samples 0` = the initial
`fetchAllBalances` result, `samples 1` = the confirmation re-fetch), the
SMTP outcome is `deliver`, and the entry of `walletState` for this address
is `st` (`none` both for a missing entry and for `lastUsdMicro: null`,
which the code treats identically). -/
def processWallet (cfg : WatchConfig) (address : String) (st : Option ℤ)
    (samples : ℕ → List NetworkSnapshot) (deliver : DeliveryResult) :
    WalletOutcome :=
  let snap := samples 0
  let total0 := totalUsdMicro snap
  let anyErr := anyErrors snap
  match st with
  | none => ⟨some total0, false, none, false, 1⟩
  | some last =>
    let deltaMicro := jsAbsDelta total0 last
    let should0 : Bool := decide (cfg.thresholdMicro ≤ deltaMicro)
    let should1 : Bool := should0 && !(!cfg.allowErrorsForEmail && anyErr)
    if should1 then
      let confirmSnap := samples 1
      let confirmMicro := totalUsdMicro confirmSnap
      let confirmDelta := jsAbsDelta confirmMicro last
      if confirmDelta < cfg.thresholdMicro then
        ⟨some last, false, none, false, 2⟩
      else
        let subject := shortAddr address ++ ": ~$" ++ fmtMicroUSD deltaMicro ++
          " (now ~$" ++ fmtMicroUSD total0 ++ ")"
        let lines := ["Address: " ++ address, "Change: ~$" ++ fmtMicroUSD deltaMicro,
          "Now: ~$" ++ fmtMicroUSD total0, ""] ++ confirmSnap.map snapLine
        let attempted := cfg.emailTo.map (fun r => EmailMsg.mk r subject lines)
        let ok := sendEmail cfg.emailTo deliver
        ⟨some total0, true, attempted, ok, 2⟩
    else
      ⟨some last, false, none, false, 1⟩

/-- One wallet's inputs for a cycle: its address, its `walletState` entry
before the cycle, its RPC sample results and its SMTP outcome. -/
structure WalletInput where
  address : String
  state : Option ℤ
  samples : ℕ → List NetworkSnapshot
  deliver : DeliveryResult

/-- `runCycle(addresses)`: evaluates every wallet once.  The `pMap`
fan-out touches no shared state relevant to these claims (each wallet has
its own `walletState` entry and its own email), so the cycle is modelled
by the list of per-wallet outcomes. -/
def runCycle (cfg : WatchConfig) (ws : List WalletInput) : List WalletOutcome :=
  ws.map (fun w => processWallet cfg w.address w.state w.samples w.deliver)

/-- The messages actually delivered in a cycle. -/
def deliveredMessages (outs : List WalletOutcome) : List EmailMsg :=
  outs.filterMap (fun o => if o.delivered then o.sent else none)

/-- First-occurrence deduplication, the behaviour of
`Array.from(new Set(list))`.  `seen` accumulates the urls already kept. -/
def dedupAux : List String → List String → List String
  | [], _ => []
  | x :: xs, seen => if x ∈ seen then dedupAux xs seen else x :: dedupAux xs (x :: seen)

/-- `Array.from(new Set(l))`. -/
def jsSetDedup (l : List String) : List String := dedupAux l []

/-- The part of a network descriptor `getProvider` reads: the preferred
url (`getRpcUrl(net)`) and the static fallback list `net.rpcs`. -/
structure ProviderNet where
  preferred : String
  rpcs : List String
  deriving DecidableEq, Repr

/-- `Array.from(new Set([preferred, ...net.rpcs]))`. -/
def candidateUrls (net : ProviderNet) : List String :=
  jsSetDedup (net.preferred :: net.rpcs)

/-- Everything observable about one `getProvider` call: the url returned
(`none` models the `No RPC available` throw), the provider-cache entry for
this chain after the call, and the urls probed, in order (the cached-entry
probe first when a cache entry exists). -/
structure AcquireResult where
  result : Option String
  cache : Option String
  probes : List String
  deriving DecidableEq, Repr

/-- The candidate loop of `getProvider`: probe each url in order with the
6-time-unit timeout, stop at the first that responds.  Returns the chosen
url (if any) and the urls probed.  Endpoint liveness is the external input
`live`. -/
def tryCandidates (live : String → Bool) : List String → Option String × List String
  | [] => (none, [])
  | u :: rest =>
    if live u then (some u, [u])
    else
      let p := tryCandidates live rest
      (p.1, u :: p.2)

/-- `getProvider(net)` from the multi-wallet watcher (the variant with the
per-chain `providerCache`): probe the cached entry first (4-time-unit
timeout) and return it unchanged on success; otherwise iterate the
deduplicated candidate list, caching and returning the first responder;
throw when none responds (the stale cache entry is left in place — the
code only ever overwrites the cache on success). -/
def getProvider (live : String → Bool) (cache : Option String)
    (net : ProviderNet) : AcquireResult :=
  match cache with
  | some u =>
    if live u then ⟨some u, some u, [u]⟩
    else
      let p := tryCandidates live (candidateUrls net)
      ⟨p.1, (match p.1 with | some v => some v | none => some u), u :: p.2⟩
  | none =>
    let p := tryCandidates live (candidateUrls net)
    ⟨p.1, p.1, p.2⟩

/-- A one-network pass whose USDT balance (6 decimals) values to `z`
micro-dollars. -/
def snapOfVal (name : String) (z : ℤ) : NetworkSnapshot :=
  NetworkSnapshot.ok ⟨name, some (.ok ⟨.intVal z, some 6, "x"⟩), none⟩

/-- A concrete configuration: threshold `$0.10` (100000 micro-dollars),
error tolerance off, a recipient configured. -/
def wCfg : WatchConfig := ⟨100000, false, some "ops@example.com"⟩

/-- Samples for a drifting wallet: the initial pass values 1,000,000, the
confirmation pass 900,000 (still beyond the 100,000 threshold). -/
def samplesDrift : ℕ → List NetworkSnapshot :=
  fun k => if k = 0 then [snapOfVal "eth" 1000000] else [snapOfVal "eth" 900000]

/-- A wallet input that will have an accepted, delivered change: baseline
0, both passes value 1,000,000. -/
def wChanged (addr : String) : WalletInput :=
  ⟨addr, some 0, fun _ => [snapOfVal "eth" 1000000], .delivered⟩

/-- The claim's scenario network: preferred url `A`, fallback list `[B]`,
so candidates are `[A, B]`. -/
def cexNet : ProviderNet := ⟨"A", ["B"]⟩

/-- Liveness in the scenario: `A` is down, `B` is up. -/
def cexLive : String → Bool := fun u => u == "B"

/-- The source's conditional `(a >= b) ? (a - b) : (b - a)` is the
absolute difference. -/
theorem jsAbsDelta_eq_abs (a b : ℤ) : jsAbsDelta a b = |a - b| := by
  unfold jsAbsDelta
  rcases le_or_lt b a with h | h
  · rw [if_pos h, abs_of_nonneg (sub_nonneg.mpr h)]
  · rw [if_neg (not_le.mpr h), abs_of_neg (by omega), neg_sub]

/-- Truncating division (the BigInt convention) by a positive divisor is
monotone in the dividend. -/
theorem tdiv_le_tdiv_right {a b c : ℤ} (hc : 0 < c) (h : a ≤ b) :
    a.tdiv c ≤ b.tdiv c := by
  rcases le_or_lt 0 a with ha | ha
  · rw [Int.tdiv_eq_ediv ha hc.le, Int.tdiv_eq_ediv (ha.trans h) hc.le]
    exact Int.ediv_le_ediv hc h
  · have ea : a.tdiv c = -((-a).tdiv c) := by rw [Int.neg_tdiv, neg_neg]
    rcases le_or_lt 0 b with hb | hb
    · have h1 : 0 ≤ (-a).tdiv c := Int.tdiv_nonneg (by omega) hc.le
      have h2 : 0 ≤ b.tdiv c := Int.tdiv_nonneg hb hc.le
      omega
    · have eb : b.tdiv c = -((-b).tdiv c) := by rw [Int.neg_tdiv, neg_neg]
      have hmono : (-b).tdiv c ≤ (-a).tdiv c := by
        rw [Int.tdiv_eq_ediv (by omega) hc.le, Int.tdiv_eq_ediv (by omega) hc.le]
        exact Int.ediv_le_ediv hc (by omega)
      omega

/-- Unrolling the valuation fold with an arbitrary accumulator. -/
theorem foldl_snapContrib (l : List NetworkSnapshot) :
    ∀ acc : ℤ, l.foldl (fun a it => a + snapContrib it) acc
      = acc + (l.map snapContrib).sum := by
  induction l with
  | nil => intro acc; simp
  | cons x xs ih => intro acc; simp [ih, add_assoc]

/-- The valuation of a pass is the sum of the per-network contributions. -/
theorem totalUsdMicro_eq_sum (snaps : List NetworkSnapshot) :
    totalUsdMicro snaps = (snaps.map snapContrib).sum := by
  unfold totalUsdMicro
  simpa using foldl_snapContrib snaps 0

/-- The candidate loop returns the first live url of the list. -/
theorem tryCandidates_fst (live : String → Bool) (l : List String) :
    (tryCandidates live l).1 = l.find? live := by
  induction l with
  | nil => rfl
  | cons u rest ih =>
    unfold tryCandidates
    by_cases h : live u
    · simp [h]
    · simp [h, ih]

/-- A delivered email implies a composed message was handed to the
transporter. -/
theorem processWallet_delivered_imp_sent (cfg : WatchConfig) (a : String)
    (st : Option ℤ) (smp : ℕ → List NetworkSnapshot) (d : DeliveryResult) :
    (processWallet cfg a st smp d).delivered = true →
    (processWallet cfg a st smp d).sent.isSome = true := by
  cases st with
  | none => intro h; simp [processWallet] at h
  | some last =>
    unfold processWallet
    dsimp only
    intro h
    split_ifs at h ⊢
    cases he : cfg.emailTo with
    | none => rw [he] at h; simp [sendEmail] at h
    | some r => simp [he]

/-- C7: on a wallet's first observation (`lastUsdMicro === null`) the
current valuation is recorded as the baseline and no notification is
emitted, whatever the valuation. -/
theorem processWallet_first_observation (cfg : WatchConfig) (address : String)
    (samples : ℕ → List NetworkSnapshot) (deliver : DeliveryResult) :
    processWallet cfg address none samples deliver
      = ⟨some (totalUsdMicro (samples 0)), false, none, false, 1⟩ := rfl

/-- C4: with error tolerance disabled and a network-level error in the
pass, no notification is emitted — whatever the delta — and the wallet's
last valuation is unchanged. -/
theorem processWallet_error_gating (cfg : WatchConfig) (address : String)
    (last : ℤ) (samples : ℕ → List NetworkSnapshot) (deliver : DeliveryResult)
    (hAllow : cfg.allowErrorsForEmail = false)
    (hErr : anyErrors (samples 0) = true) :
    processWallet cfg address (some last) samples deliver
      = ⟨some last, false, none, false, 1⟩ := by
  unfold processWallet
  simp [hAllow, hErr]

/-- C4 witness: a pass with an above-threshold delta and one errored
network emits nothing and keeps the baseline. -/
theorem processWallet_error_gating_witness :
    processWallet wCfg "0xAAA" (some 0)
      (fun _ => [snapOfVal "eth" 1000000, .err "polygon" "timeout"]) .delivered
      = ⟨some 0, false, none, false, 1⟩ :=
  processWallet_error_gating wCfg "0xAAA" 0
    (fun _ => [snapOfVal "eth" 1000000, .err "polygon" "timeout"]) .delivered
    rfl (by decide)

/-- C5: when the initial delta meets the threshold and gating passes,
exactly one confirmation re-sample runs (two fetches in total), its delta
is taken against the same baseline, and a confirmation delta below the
threshold suppresses the notification and leaves the baseline unchanged. -/
theorem processWallet_confirm_resample (cfg : WatchConfig) (address : String)
    (last : ℤ) (samples : ℕ → List NetworkSnapshot) (deliver : DeliveryResult)
    (hDelta : cfg.thresholdMicro ≤ jsAbsDelta (totalUsdMicro (samples 0)) last)
    (hGate : cfg.allowErrorsForEmail = true ∨ anyErrors (samples 0) = false) :
    (processWallet cfg address (some last) samples deliver).fetches = 2
    ∧ (jsAbsDelta (totalUsdMicro (samples 1)) last < cfg.thresholdMicro →
        processWallet cfg address (some last) samples deliver
          = ⟨some last, false, none, false, 2⟩) := by
  have hg : (!cfg.allowErrorsForEmail && anyErrors (samples 0)) = false := by
    rcases hGate with h | h <;> simp [h]
  have hd : decide (cfg.thresholdMicro ≤ jsAbsDelta (totalUsdMicro (samples 0)) last)
      = true := decide_eq_true hDelta
  constructor
  · unfold processWallet
    simp only [hd, hg, Bool.not_false, Bool.and_true, if_true]
    split <;> rfl
  · intro hconf
    unfold processWallet
    simp [hd, hg, hconf]

/-- C5 witness: initial delta 1,000,000 passes gating, the confirmation
valuation 20,000 gives a delta below 100,000, so nothing is sent and the
baseline stays 0; two fetches ran. -/
theorem processWallet_confirm_resample_witness :
    (processWallet wCfg "0xAAA" (some 0)
        (fun k => if k = 0 then [snapOfVal "eth" 1000000] else [snapOfVal "eth" 20000])
        .delivered).fetches = 2
    ∧ processWallet wCfg "0xAAA" (some 0)
        (fun k => if k = 0 then [snapOfVal "eth" 1000000] else [snapOfVal "eth" 20000])
        .delivered
        = ⟨some 0, false, none, false, 2⟩ := by
  have h := processWallet_confirm_resample wCfg "0xAAA" 0
    (fun k => if k = 0 then [snapOfVal "eth" 1000000] else [snapOfVal "eth" 20000])
    .delivered (by decide) (Or.inr (by decide))
  exact ⟨h.1, h.2 (by decide)⟩

/-- C6: the delta is the absolute difference `|current - last|`, the
threshold is `round(usdDelta * 1e6)` (100000 micro-units for `$0.10`), a
below-threshold delta emits nothing and leaves the state unchanged, and on
baseline 1,000,000 with threshold 100,000 a valuation of 1,050,000 does
not trigger while 1,150,000 triggers the confirmation pass. -/
theorem processWallet_delta_threshold (cfg : WatchConfig) (address : String)
    (last : ℤ) (samples : ℕ → List NetworkSnapshot) (deliver : DeliveryResult) :
    jsAbsDelta (totalUsdMicro (samples 0)) last = |totalUsdMicro (samples 0) - last|
    ∧ thresholdMicroOf (1 / 10) = 100000
    ∧ (jsAbsDelta (totalUsdMicro (samples 0)) last < cfg.thresholdMicro →
        processWallet cfg address (some last) samples deliver
          = ⟨some last, false, none, false, 1⟩)
    ∧ (last = 1000000 → cfg.thresholdMicro = 100000 →
        totalUsdMicro (samples 0) = 1050000 →
        processWallet cfg address (some last) samples deliver
          = ⟨some last, false, none, false, 1⟩)
    ∧ (last = 1000000 → cfg.thresholdMicro = 100000 →
        totalUsdMicro (samples 0) = 1150000 → anyErrors (samples 0) = false →
        (processWallet cfg address (some last) samples deliver).fetches = 2) := by
  have hthr : thresholdMicroOf (1 / 10) = 100000 := by
    unfold thresholdMicroOf
    have h : (1 / 10 : ℚ) * 1000000 = ((100000 : ℤ) : ℚ) := by norm_num
    rw [h, round_intCast]
  have hsmall : jsAbsDelta (totalUsdMicro (samples 0)) last < cfg.thresholdMicro →
      processWallet cfg address (some last) samples deliver
        = ⟨some last, false, none, false, 1⟩ := by
    intro hlt
    have hd : decide (cfg.thresholdMicro ≤ jsAbsDelta (totalUsdMicro (samples 0)) last)
        = false := decide_eq_false (not_le.mpr hlt)
    unfold processWallet
    simp [hd]
  refine ⟨jsAbsDelta_eq_abs _ _, hthr, hsmall, ?_, ?_⟩
  · intro h1 h2 h3
    apply hsmall
    rw [h1, h2, h3]
    decide
  · intro h1 h2 h3 herr
    have hd : decide (cfg.thresholdMicro ≤ jsAbsDelta (totalUsdMicro (samples 0)) last)
        = true := by
      rw [h1, h2, h3]; decide
    unfold processWallet
    simp only [hd, herr, Bool.and_false, Bool.not_false, Bool.and_true, if_true]
    split <;> rfl

/-- C6 witness: with baseline 1,000,000 and threshold 100,000, valuation
1,050,000 does not trigger and the state is unchanged, while 1,150,000
reaches the confirmation pass (two fetches). -/
theorem processWallet_delta_threshold_witness :
    processWallet wCfg "0xAAA" (some 1000000)
        (fun _ => [snapOfVal "eth" 1050000]) .delivered
      = ⟨some 1000000, false, none, false, 1⟩
    ∧ (processWallet wCfg "0xAAA" (some 1000000)
        (fun _ => [snapOfVal "eth" 1150000]) .delivered).fetches = 2 := by
  constructor
  · exact (processWallet_delta_threshold wCfg "0xAAA" 1000000
      (fun _ => [snapOfVal "eth" 1050000]) .delivered).2.2.2.1 rfl rfl (by decide)
  · exact (processWallet_delta_threshold wCfg "0xAAA" 1000000
      (fun _ => [snapOfVal "eth" 1150000]) .delivered).2.2.2.2 rfl rfl
      (by decide) (by decide)

/-- C1 counterexample: an accepted change whose notification delivery
fails still advances the stored valuation — and advances it to the initial
pass's valuation 1,000,000, not the confirmed valuation 900,000. -/
theorem processWallet_failed_delivery_cex :
    (processWallet wCfg "0xAAA" (some 0) samplesDrift .failed).accepted = true
    ∧ (processWallet wCfg "0xAAA" (some 0) samplesDrift .failed).delivered = false
    ∧ (processWallet wCfg "0xAAA" (some 0) samplesDrift .failed).lastUsdMicro
        ≠ some 0
    ∧ (processWallet wCfg "0xAAA" (some 0) samplesDrift .failed).lastUsdMicro
        ≠ some (totalUsdMicro (samplesDrift 1)) := by
  refine ⟨by decide, by decide, by decide, by decide⟩

/-- C1 (amended): when a change is accepted after confirmation, the
wallet's last valuation is advanced to the initial pass's valuation (not
the confirmed one), and the advance does not depend on delivery success:
`sendEmail` swallows failures, so the committed state is identical whether
the notification was delivered or failed. -/
theorem processWallet_commit_ignores_delivery (cfg : WatchConfig)
    (address : String) (st : Option ℤ) (samples : ℕ → List NetworkSnapshot) :
    ((processWallet cfg address st samples .delivered).lastUsdMicro
      = (processWallet cfg address st samples .failed).lastUsdMicro)
    ∧ ∀ d : DeliveryResult,
        (processWallet cfg address st samples d).accepted = true →
        (processWallet cfg address st samples d).lastUsdMicro
          = some (totalUsdMicro (samples 0)) := by
  cases st with
  | none =>
    refine ⟨rfl, ?_⟩
    intro d h
    simp [processWallet] at h
  | some last =>
    constructor
    · unfold processWallet
      dsimp only
      split_ifs <;> rfl
    · intro d h
      unfold processWallet at h ⊢
      dsimp only at h ⊢
      split_ifs at h ⊢
      simp_all

/-- C1 (amended) witness: in the drifting scenario the failed-delivery
commit equals the delivered-case commit and is the initial valuation. -/
theorem processWallet_commit_ignores_delivery_witness :
    (processWallet wCfg "0xAAA" (some 0) samplesDrift .delivered).lastUsdMicro
      = (processWallet wCfg "0xAAA" (some 0) samplesDrift .failed).lastUsdMicro
    ∧ (processWallet wCfg "0xAAA" (some 0) samplesDrift .failed).lastUsdMicro
        = some (totalUsdMicro (samplesDrift 0)) := by
  have h := processWallet_commit_ignores_delivery wCfg "0xAAA" (some 0) samplesDrift
  exact ⟨h.1, h.2 .failed (by decide)⟩

/-- C2 counterexample: two wallets with accepted changes and the same
(global) recipient produce two delivered messages, not one, and no single
message carries both wallets' detail blocks. -/
theorem runCycle_shared_recipient_cex :
    (deliveredMessages (runCycle wCfg [wChanged "0xAAA", wChanged "0xBBB"])).length ≠ 1
    ∧ (deliveredMessages (runCycle wCfg [wChanged "0xAAA", wChanged "0xBBB"])).map
        EmailMsg.recipient = ["ops@example.com", "ops@example.com"]
    ∧ (deliveredMessages (runCycle wCfg [wChanged "0xAAA", wChanged "0xBBB"])).all
        (fun m => !(m.body.contains ("Address: 0xAAA")
          && m.body.contains ("Address: 0xBBB"))) = true := by
  refine ⟨by decide, by decide, by decide⟩

/-- C2 (amended): the watcher performs no per-recipient aggregation — each
wallet with an accepted, delivered change produces its own message, so a
cycle delivers exactly as many messages as wallets whose email was
delivered. -/
theorem runCycle_one_message_per_wallet (cfg : WatchConfig)
    (ws : List WalletInput) :
    (deliveredMessages (runCycle cfg ws)).length
      = ws.countP (fun w =>
          (processWallet cfg w.address w.state w.samples w.deliver).delivered) := by
  induction ws with
  | nil => rfl
  | cons w rest ih =>
    unfold runCycle at ih ⊢
    unfold deliveredMessages at ih ⊢
    rw [List.filterMap_map] at ih
    simp only [List.map_cons, List.filterMap_cons, List.countP_cons]
    cases hd : (processWallet cfg w.address w.state w.samples w.deliver).delivered with
    | false => simp [hd, ih]
    | true =>
      have hs := processWallet_delivered_imp_sent cfg w.address w.state w.samples
        w.deliver hd
      rcases Option.isSome_iff_exists.mp hs with ⟨m, hm⟩
      simp [hd, hm, ih]

/-- C3 counterexample: with candidates `[A(down), B(up)]` and `A` cached,
the probe sequence is `A` (cached probe, fails) and then `A` AGAIN — the
first candidate retried is the very endpoint that just failed — before
`B`; the call still ends up returning `B`. -/
theorem getProvider_retries_failed_first_cex :
    cexLive "A" = false
    ∧ (getProvider cexLive (some "A") cexNet).probes = ["A", "A", "B"]
    ∧ (getProvider cexLive (some "A") cexNet).result = some "B" := by
  refine ⟨by decide, by decide, by decide⟩

/-- C3 (amended): after a failed cached probe the selector re-probes the
whole candidate list in order — re-trying the failed endpoint first when
it heads the list — but it never SELECTS a dead endpoint: the result is
the first live candidate (`B` in the scenario), which becomes the new
cache entry, and if every candidate is unreachable the call fails with the
no-live-endpoint error. -/
theorem getProvider_failover (live : String → Bool) (cache : Option String)
    (net : ProviderNet) (u : String) (hc : cache = some u)
    (hu : live u = false) :
    (getProvider live cache net).result = (candidateUrls net).find? live
    ∧ (getProvider live cache net).result ≠ some u
    ∧ (∀ v, (getProvider live cache net).result = some v →
        live v = true ∧ (getProvider live cache net).cache = some v)
    ∧ ((∀ w ∈ candidateUrls net, live w = false) →
        (getProvider live cache net).result = none) := by
  subst hc
  have hres : (getProvider live (some u) net).result
      = (candidateUrls net).find? live := by
    unfold getProvider
    simp [hu, tryCandidates_fst]
  have hcache : (getProvider live (some u) net).cache
      = (match (candidateUrls net).find? live with
          | some v => some v
          | none => some u) := by
    unfold getProvider
    simp [hu, tryCandidates_fst]
  refine ⟨hres, ?_, ?_, ?_⟩
  · intro hcontr
    rw [hres] at hcontr
    have hlive := List.find?_some hcontr
    rw [hu] at hlive
    exact Bool.false_ne_true hlive
  · intro v hv
    rw [hres] at hv
    refine ⟨List.find?_some hv, ?_⟩
    rw [hcache, hv]
  · intro hdead
    rw [hres]
    exact List.find?_eq_none.mpr fun w hw => by simp [hdead w hw]

/-- C3 (amended) witness: in the `[A(down), B(up)]` scenario the selector
does not return the failed `A`, and returns the first live candidate. -/
theorem getProvider_failover_witness :
    (getProvider cexLive (some "A") cexNet).result ≠ some "A"
    ∧ (getProvider cexLive (some "A") cexNet).result
        = (candidateUrls cexNet).find? cexLive := by
  have h := getProvider_failover cexLive (some "A") cexNet "A" rfl (by decide)
  exact ⟨h.2.1, h.1⟩

/-- C8 counterexample: a reading with decimals 0 is NOT valued by
`raw * 1e6 / 10^0`: raw 5 with decimals 0 yields 5 micro-units, while the
claimed formula gives 5,000,000. -/
theorem toMicro_zero_decimals_cex :
    toMicroUsdBigInt ⟨.intVal 5, some 0, "5"⟩ = 5
    ∧ ((5 : ℤ) * 1000000).tdiv (pow10n 0) = 5000000
    ∧ toMicroUsdBigInt ⟨.intVal 5, some 0, "5"⟩
        ≠ ((5 : ℤ) * 1000000).tdiv (pow10n 0) := by
  refine ⟨by decide, by decide, by decide⟩

/-- C8 (amended): for nonzero decimals `d` the conversion is
`raw * 1e6 / 10^d` in integer (truncating) arithmetic — decimals 0 or
absent instead divide by `10^6`; an errored or missing reading contributes
0; a snapshot's value sums exactly the USDT and USDC contributions; the
pass valuation sums the per-network contributions with network-level
errors contributing 0; and the any-error flag is set exactly when some
snapshot is a network-level error. -/
theorem valuation_spec (t : TokenData) (z : ℤ) (d : ℕ)
    (hraw : t.raw = .intVal z) (hdec : t.decimals = some d) (hd : d ≠ 0) :
    toMicroUsdBigInt t = (z * 1000000).tdiv (pow10n d)
    ∧ (∀ t2 : TokenData, t2.raw = .null ∨ t2.raw = .unconvertible →
        toMicroUsdBigInt t2 = 0)
    ∧ tokenContrib none = 0
    ∧ tokenContrib (some .err) = 0
    ∧ (∀ s : SnapOk, calcUsdMicro s = tokenContrib s.usdt + tokenContrib s.usdc)
    ∧ (∀ n m, snapContrib (.err n m) = 0)
    ∧ (∀ snaps : List NetworkSnapshot,
        totalUsdMicro snaps = (snaps.map snapContrib).sum)
    ∧ (∀ snaps : List NetworkSnapshot,
        anyErrors snaps = true ↔ ∃ x ∈ snaps, isErrSnap x = true) := by
  refine ⟨?_, ?_, rfl, rfl, fun s => rfl, fun n m => rfl, totalUsdMicro_eq_sum, ?_⟩
  · simp [toMicroUsdBigInt, effDecimals, hraw, hdec, hd]
  · intro t2 h2
    rcases h2 with h2 | h2 <;> simp [toMicroUsdBigInt, h2]
  · intro snaps
    simp [anyErrors, List.any_eq_true]

/-- C8 (amended) witness: raw 7 with 3 decimals converts by the integer
formula `7 * 1e6 / 10^3`. -/
theorem valuation_spec_witness :
    toMicroUsdBigInt ⟨.intVal 7, some 3, "s"⟩ = ((7 : ℤ) * 1000000).tdiv (pow10n 3) :=
  (valuation_spec ⟨.intVal 7, some 3, "s"⟩ 7 3 rfl rfl (by decide)).1

/-- C9: a reading whose decimals field is 0 or absent is converted with 6
decimals — it divides by `10^6`, so raw `r` with decimals 0 is valued at
exactly `r` micro-units — and the conversion is total: a raw amount on
which `BigInt` throws yields 0. -/
theorem toMicro_decimals_default (t : TokenData) (z : ℤ)
    (hz : t.raw = .intVal z) (hd : t.decimals = some 0 ∨ t.decimals = none) :
    toMicroUsdBigInt t = (z * 1000000).tdiv (pow10n 6)
    ∧ toMicroUsdBigInt t = z
    ∧ (∀ t2 : TokenData, t2.raw = .unconvertible → toMicroUsdBigInt t2 = 0) := by
  have h6 : effDecimals t = 6 := by
    unfold effDecimals
    rcases hd with h | h <;> simp [h]
  have h1 : toMicroUsdBigInt t = (z * 1000000).tdiv (pow10n 6) := by
    simp [toMicroUsdBigInt, hz, h6]
  have hpow : pow10n 6 = 1000000 := by norm_num [pow10n]
  refine ⟨h1, ?_, ?_⟩
  · rw [h1, hpow]
    exact Int.mul_tdiv_cancel z (by norm_num)
  · intro t2 h2
    simp [toMicroUsdBigInt, h2]

/-- C9 witness: raw 5 with decimals 0 is valued at 5 micro-units. -/
theorem toMicro_decimals_default_witness :
    toMicroUsdBigInt ⟨.intVal 5, some 0, "5"⟩ = 5 :=
  (toMicro_decimals_default ⟨.intVal 5, some 0, "5"⟩ 5 rfl (Or.inl rfl)).2.1

/-- C10: for a fixed decimals field the conversion is monotone in the raw
amount, and a zero raw amount converts to 0 whatever the decimals. -/
theorem toMicro_monotone (z1 z2 : ℤ) (d : Option ℕ) (f1 f2 f0 : String)
    (h : z1 ≤ z2) :
    toMicroUsdBigInt ⟨.intVal z1, d, f1⟩ ≤ toMicroUsdBigInt ⟨.intVal z2, d, f2⟩
    ∧ toMicroUsdBigInt ⟨.intVal 0, d, f0⟩ = 0 := by
  constructor
  · show (z1 * 1000000).tdiv (pow10n (effDecimals ⟨.intVal z1, d, f1⟩))
        ≤ (z2 * 1000000).tdiv (pow10n (effDecimals ⟨.intVal z2, d, f2⟩))
    have he : effDecimals ⟨RawVal.intVal z1, d, f1⟩
        = effDecimals ⟨RawVal.intVal z2, d, f2⟩ := rfl
    rw [he]
    apply tdiv_le_tdiv_right
    · unfold pow10n
      positivity
    · exact mul_le_mul_of_nonneg_right h (by norm_num)
  · show ((0 : ℤ) * 1000000).tdiv (pow10n (effDecimals ⟨.intVal 0, d, f0⟩)) = 0
    simp

/-- C10 witness: monotone at 3 ≤ 8 with 6 decimals, and 0 maps to 0. -/
theorem toMicro_monotone_witness :
    toMicroUsdBigInt ⟨.intVal 3, some 6, "a"⟩ ≤ toMicroUsdBigInt ⟨.intVal 8, some 6, "b"⟩
    ∧ toMicroUsdBigInt ⟨.intVal 0, some 6, "c"⟩ = 0 :=
  toMicro_monotone 3 8 (some 6) "a" "b" "c" (by decide)

end WalletWatcher
